import Mathlib

/-!
Shallow embedding of `src/friendlist_remover.py` (Epic-Games-Friendlist-Remover).

The program authenticates through a device-code OAuth flow
(`FriendsRemover.exchange_device_code_for_user_token`), resolves friend account
ids to display names in batches of 100 (`_chunked`,
`FriendsRemover.resolve_display_names`), lets the user multi-select entries in
a terminal UI (`EpicFriendsUI.select`), bulk-removes the selection
(`FriendsRemover.run`, step 8), and finally kills the session
(`FriendsRemover.kill_session`).

Network effects are embedded by passing the responses of the remote service in
explicitly (as oracles `Nat → ...` indexed by the request number); a raised
Python exception becomes an `Except`/`Option` error value.  Machine integers
do not overflow in this program, so statuses, lengths and times are `Nat`
(Python integers are unbounded anyway).
-/

/-- Python truthiness-based `a or b` for an optional string field
(`item.get("k") or fallback`): `None` and `""` fall through to the fallback. -/
def orElseStr (a : Option String) (b : String) : String :=
  match a with
  | none => b
  | some s => if s = "" then b else s

/-- `_normalize_account_id` (lines 33-36): if `":" in raw`, return
`raw.split(":", 1)[1]`, i.e. the suffix after the first colon; else `raw`.
The suffix after the first colon equals dropping the longest colon-free prefix
and the colon itself. -/
def normalize_account_id (raw : String) : String :=
  if raw.data.contains ':' then
    String.mk ((raw.data.dropWhile (fun c => c ≠ ':')).drop 1)
  else raw

/-- `_chunked` (lines 28-30): `seq[i : i + n]` for `i in range(0, len(seq), n)`.
For `n = 0` Python's `range` raises; the program only calls this with
`n = 100`, and we return `[]` in that unused case to stay total. -/
def chunked (seq : List String) (n : Nat) : List (List String) :=
  if h : n = 0 ∨ seq = [] then []
  else seq.take n :: chunked (seq.drop n) n
termination_by seq.length
decreasing_by
  simp only [not_or] at h
  have h1 : 0 < n := Nat.pos_of_ne_zero h.1
  have h2 : 0 < seq.length := List.length_pos.mpr h.2
  simp only [List.length_drop]
  omega

namespace EpicFriendsUI

/-- One row handed to the selector (built in `FriendsRemover.run`, step 6):
all four fields are strings, exactly as in the Python dict. -/
structure Row where
  accountId : String
  displayName : String
  mutualCt : String
  created : String
deriving DecidableEq

def defaultRow : Row := ⟨"", "", "", ""⟩

/-- Viewport start offset computed in `_render_table` (line 67):
`0 if len(rows) <= viewport_size else
 max(0, min(cursor_index - viewport_size // 2, len(rows) - viewport_size))`.
Python ints can go negative before the clamp, so the computation lives in
`Int`; `viewport_size // 2` is floor division of a nonnegative int, hence
`Nat` division. -/
def render_start (nRows cursor vs : Nat) : Int :=
  if nRows ≤ vs then 0
  else max 0 (min ((cursor : Int) - ((vs / 2 : Nat) : Int)) ((nRows : Int) - (vs : Int)))

/-- Viewport end offset (line 68):
`len(rows) if len(rows) <= viewport_size else start + viewport_size`. -/
def render_end (nRows cursor vs : Nat) : Int :=
  if nRows ≤ vs then (nRows : Int) else render_start nRows cursor vs + (vs : Int)

/-- Abstract input events of the selector loop (lines 105-122).  `other` is any
key with no binding (the loop just re-renders). -/
inductive UIEvent where
  | up
  | down
  | toggleKey
  | enter
  | cancel
  | other
deriving DecidableEq

/-- The `x`/`X` branch of the event loop (lines 111-116): remove the account id
from the selected set if present, else add it.  Python's `set` is a `Finset`. -/
def toggleSelect (selected : Finset String) (accId : String) : Finset String :=
  if accId ∈ selected then selected.erase accId else insert accId selected

/-- The `while True` event loop of `select` (lines 105-122), consuming a finite
prefix of the input-event stream.  Returns
`(result, events consumed, re-renders performed)`; `result = none` models the
loop still blocking on `readchar.readkey()` after the given events ran out.
`(cursor - 1) % len` on Python ints equals `(cursor + len - 1) % len` here
since the cursor stays in `[0, len)`.  `Enter`/`Q` return before the
`live.update` re-render; every other key re-renders and continues. -/
def selectLoop (rows : List Row) : Nat → Finset String → List UIEvent →
    Option (Finset String) × Nat × Nat
  | _, _, [] => (none, 0, 0)
  | cursor, selected, e :: rest =>
    match e with
    | .enter => (some selected, 1, 0)
    | .cancel => (some ∅, 1, 0)
    | .up =>
      let r := selectLoop rows ((cursor + rows.length - 1) % rows.length) selected rest
      (r.1, r.2.1 + 1, r.2.2 + 1)
    | .down =>
      let r := selectLoop rows ((cursor + 1) % rows.length) selected rest
      (r.1, r.2.1 + 1, r.2.2 + 1)
    | .toggleKey =>
      let r := selectLoop rows cursor
        (toggleSelect selected ((rows.getD cursor defaultRow).accountId)) rest
      (r.1, r.2.1 + 1, r.2.2 + 1)
    | .other =>
      let r := selectLoop rows cursor selected rest
      (r.1, r.2.1 + 1, r.2.2 + 1)

/-- `EpicFriendsUI.select` (lines 97-122).  An empty row list returns `[]`
at once (line 98-99), before the `Live` context (initial render) and before
any `readkey`.  For a non-empty list, `Live(...)` renders once up front and
the loop starts with `cursor_index = 0`, `selected_ids = set()`.  The returned
selection is `list(selected_ids)`, i.e. the selected set in unspecified order,
embedded as the `Finset` itself. -/
def select (rows : List Row) (viewportSize : Nat) (events : List UIEvent) :
    Option (Finset String) × Nat × Nat :=
  if rows = [] then (some ∅, 0, 0)
  else
    let r := selectLoop rows 0 ∅ events
    (r.1, r.2.1, r.2.2 + 1)

end EpicFriendsUI

/-- C8: for every list length `N ≥ 1`, viewport size `≥ 1` and cursor in
`[0, N-1]`, the viewport of `_render_table` satisfies `start ≥ 0`, `end ≤ N`,
`end - start = min N viewportSize`, and `start ≤ cursorIndex < end`: the
cursor is always visible and the viewport never runs past either end. -/
theorem viewport_invariant (N c vs : Nat) (hN : 1 ≤ N) (hvs : 1 ≤ vs) (hc : c < N) :
    0 ≤ EpicFriendsUI.render_start N c vs
    ∧ EpicFriendsUI.render_end N c vs ≤ (N : Int)
    ∧ EpicFriendsUI.render_end N c vs - EpicFriendsUI.render_start N c vs
        = min (N : Int) (vs : Int)
    ∧ EpicFriendsUI.render_start N c vs ≤ (c : Int)
    ∧ (c : Int) < EpicFriendsUI.render_end N c vs := by
  unfold EpicFriendsUI.render_end EpicFriendsUI.render_start
  split
  · omega
  · omega

/-- Witness for `viewport_invariant`: a concrete list of 20 rows, viewport 14,
cursor at the last index. -/
theorem viewport_invariant_witness :
    (1 ≤ 20 ∧ 1 ≤ 14 ∧ 19 < 20)
    ∧ (0 ≤ EpicFriendsUI.render_start 20 19 14
       ∧ EpicFriendsUI.render_end 20 19 14 ≤ (20 : Int)
       ∧ EpicFriendsUI.render_end 20 19 14 - EpicFriendsUI.render_start 20 19 14
           = min (20 : Int) (14 : Int)
       ∧ EpicFriendsUI.render_start 20 19 14 ≤ (19 : Int)
       ∧ (19 : Int) < EpicFriendsUI.render_end 20 19 14) :=
  ⟨by omega, viewport_invariant 20 19 14 (by omega) (by omega) (by omega)⟩

/-- C9: toggling the same entry twice returns the selected set to its prior
state — the `x` branch of the selector is its own inverse. -/
theorem toggle_involutive (selected : Finset String) (accId : String) :
    EpicFriendsUI.toggleSelect (EpicFriendsUI.toggleSelect selected accId) accId
      = selected := by
  unfold EpicFriendsUI.toggleSelect
  by_cases h : accId ∈ selected
  · rw [if_pos h, if_neg (Finset.not_mem_erase accId selected), Finset.insert_erase h]
  · rw [if_neg h, if_pos (Finset.mem_insert_self accId selected), Finset.erase_insert h]

/-- C10: invoked on an empty list, the selector returns the empty selection
immediately: no input event is consumed, nothing is rendered, the event loop
is never entered. -/
theorem select_empty_immediate (viewportSize : Nat) (events : List EpicFriendsUI.UIEvent) :
    EpicFriendsUI.select [] viewportSize events = (some ∅, 0, 0) := rfl

namespace FriendsRemover

/-- One answer of the token endpoint inside the polling loop
(`exchange_device_code_for_user_token`, lines 157-184): either an HTTP
response with a status code and the parsed `error` field of its JSON body
(`""` when the body is unparseable or has no `error` key), or a raised
transport exception from `session.post` itself. -/
inductive TokenResp where
  | resp (status : Nat) (errField : String)
  | exn (msg : String)
deriving DecidableEq

/-- What one iteration of the polling loop decides to do. -/
inductive PollDecision where
  | authorized
  | retrySleep
  | retryNoSleep
  | terminal (status : Nat)
  | raised (msg : String)
deriving DecidableEq

/-- The body of the `while True` loop (lines 163-184), given the response and
the elapsed seconds `time.time() - start` at the check:
status 200 returns the token; a status in `(400, 401, 403)` whose `error`
field is one of `authorization_pending` / `invalid_grant` / `slow_down`
retries after `time.sleep(2)` provided the elapsed time is under
`max_wait_seconds`; anything else reaches `resp.raise_for_status()`, which
raises exactly for statuses in `[400, 600)` and otherwise falls through to the
next iteration with no sleep. -/
def pollStep : TokenResp → Nat → Nat → PollDecision
  | .exn m, _, _ => .raised m
  | .resp st err, elapsed, maxWait =>
    if st = 200 then .authorized
    else if (st = 400 ∨ st = 401 ∨ st = 403)
            ∧ (err = "authorization_pending" ∨ err = "invalid_grant" ∨ err = "slow_down")
            ∧ elapsed < maxWait then .retrySleep
    else if 400 ≤ st ∧ st < 600 then .terminal st
    else .retryNoSleep

/-- Observable outcome of the polling loop, with the elapsed time at which it
was produced. -/
inductive PollResult where
  | authorized (elapsed : Nat)
  | failed (status : Nat) (elapsed : Nat)
  | raised (msg : String) (elapsed : Nat)
deriving DecidableEq

/-- The polling loop of `exchange_device_code_for_user_token`:
`resps i` is the i-th response, `rt i` the wall-clock seconds the i-th request
took, `e` the elapsed time when the iteration begins, so the elapsed time at
the status check is `e + rt i`; a transient rejection sleeps 2 seconds before
the next iteration.  The `fuel` argument only bounds how many iterations we
unfold (the Python loop has no such bound; `none` means the loop was still
running after `fuel` iterations). -/
def pollLoop (resps : Nat → TokenResp) (rt : Nat → Nat) (maxWait : Nat) :
    Nat → Nat → Nat → Option PollResult
  | 0, _, _ => none
  | fuel + 1, i, e =>
    let c := e + rt i
    match pollStep (resps i) c maxWait with
    | .authorized => some (.authorized c)
    | .terminal st => some (.failed st c)
    | .raised m => some (.raised m c)
    | .retrySleep => pollLoop resps rt maxWait fuel (i + 1) (c + 2)
    | .retryNoSleep => pollLoop resps rt maxWait fuel (i + 1) c

/-- `exchange_device_code_for_user_token` starts the loop at `start = time.time()`
(elapsed 0) with the first request; `max_wait_seconds` defaults to 180. -/
def exchange_device_code_for_user_token (resps : Nat → TokenResp) (rt : Nat → Nat)
    (maxWait fuel : Nat) : Option PollResult :=
  pollLoop resps rt maxWait fuel 0 0

/-- A provider that always answers with the transient "pending" rejection
(HTTP 400, `error = "authorization_pending"`). -/
def pendingResps : Nat → TokenResp := fun _ => .resp 400 "authorization_pending"

/-- On the always-pending provider, `pollStep` retries below the ceiling and
fails terminally at or above it. -/
theorem pollStep_pending (c maxWait : Nat) :
    pollStep (pendingResps i) c maxWait
      = if c < maxWait then .retrySleep else .terminal 400 := by
  by_cases h : c < maxWait <;> simp [pendingResps, pollStep, h]

/-- Bounded-wait lemma for the always-pending provider: once the remaining
fuel covers the ceiling (`maxWait + 2 ≤ e + 2 * fuel`) and the entry elapsed
time has not overshot (`e ≤ maxWait + 1`), the loop returns a terminal
HTTP-400 failure whose elapsed time `c` satisfies
`maxWait ≤ c ≤ maxWait + 1 + B`, where `B` bounds every request duration. -/
theorem pollLoop_pending_bounded (rt : Nat → Nat) (B maxWait : Nat)
    (hB : ∀ i, rt i ≤ B) :
    ∀ fuel i e, maxWait + 2 ≤ e + 2 * fuel → e ≤ maxWait + 1 →
    ∃ c, pollLoop pendingResps rt maxWait fuel i e = some (.failed 400 c)
         ∧ maxWait ≤ c ∧ c ≤ maxWait + 1 + B := by
  intro fuel
  induction fuel with
  | zero => intro i e h1 h2; omega
  | succ fuel ih =>
    intro i e h1 h2
    by_cases hc : e + rt i < maxWait
    · have hstep : pollStep (pendingResps i) (e + rt i) maxWait = .retrySleep := by
        rw [pollStep_pending]; rw [if_pos hc]
      have := ih (i + 1) (e + rt i + 2) (by omega) (by omega)
      obtain ⟨c, hrun, hcb⟩ := this
      refine ⟨c, ?_, hcb⟩
      simp only [pollLoop, hstep]
      exact hrun
    · have hstep : pollStep (pendingResps i) (e + rt i) maxWait = .terminal 400 := by
        rw [pollStep_pending]; rw [if_neg hc]
      refine ⟨e + rt i, ?_, by omega, ?_⟩
      · simp only [pollLoop, hstep]
      · have := hB i; omega

/-- C4: for a provider that always answers with the transient "pending"
rejection, the device-code polling loop terminates with a terminal failure
(never an authorized credential, never an endless loop): running
`exchange_device_code_for_user_token` with fuel `maxWait + 1` already returns
`some`, the result is the terminal HTTP-400 failure, and its elapsed time `c`
is at or just after the ceiling — `maxWait ≤ c ≤ maxWait + 1 + B` where `B`
bounds the duration of a single request (the code caps it with a 10-second
timeout), so with the default ceiling 180 it never runs later than
`181 + B` seconds. -/
theorem polling_pending_terminates (rt : Nat → Nat) (B maxWait : Nat)
    (hB : ∀ i, rt i ≤ B) :
    ∃ c, exchange_device_code_for_user_token pendingResps rt maxWait (maxWait + 1)
           = some (.failed 400 c)
         ∧ maxWait ≤ c ∧ c ≤ maxWait + 1 + B := by
  unfold exchange_device_code_for_user_token
  exact pollLoop_pending_bounded rt B maxWait hB (maxWait + 1) 0 0 (by omega) (by omega)

/-- Witness for `polling_pending_terminates`: instantaneous requests
(`rt = 0`), default ceiling 180. -/
theorem polling_pending_terminates_witness :
    (∀ i : Nat, (fun _ : Nat => 0) i ≤ 0)
    ∧ ∃ c, exchange_device_code_for_user_token pendingResps (fun _ => 0) 180 181
             = some (.failed 400 c)
           ∧ 180 ≤ c ∧ c ≤ 181 :=
  ⟨fun _ => Nat.le_refl 0,
   polling_pending_terminates (fun _ => 0) 0 180 (fun _ => Nat.le_refl 0)⟩

/-- C5: in the polling loop a rejection (an HTTP error status in `[400, 600)`)
is retried if and only if it is transient and under the ceiling: the decision
is `retrySleep` exactly when the status is 400/401/403, the `error` field is
`authorization_pending`, `invalid_grant` or `slow_down`, and the elapsed time
is under `maxWait`; every other rejection — and a transient one at or past
the ceiling — is a terminal failure carrying that status, with no further
retry; and on `retrySleep` the loop really does sleep the fixed 2-second
interval and issue the next request. -/
theorem poll_retry_iff_transient_under_ceiling (st : Nat) (err : String)
    (elapsed maxWait : Nat) (hrej : 400 ≤ st ∧ st < 600) :
    (pollStep (.resp st err) elapsed maxWait = .retrySleep
      ↔ (st = 400 ∨ st = 401 ∨ st = 403)
        ∧ (err = "authorization_pending" ∨ err = "invalid_grant" ∨ err = "slow_down")
        ∧ elapsed < maxWait)
    ∧ (¬((st = 400 ∨ st = 401 ∨ st = 403)
        ∧ (err = "authorization_pending" ∨ err = "invalid_grant" ∨ err = "slow_down")
        ∧ elapsed < maxWait)
       → pollStep (.resp st err) elapsed maxWait = .terminal st)
    ∧ (∀ (resps : Nat → TokenResp) (rt : Nat → Nat) (fuel i e : Nat),
        resps i = .resp st err → e + rt i = elapsed
        → pollStep (.resp st err) elapsed maxWait = .retrySleep
        → pollLoop resps rt maxWait (fuel + 1) i e
            = pollLoop resps rt maxWait fuel (i + 1) (elapsed + 2)) := by
  have h200 : ¬(st = 200) := by omega
  refine ⟨?_, ?_, ?_⟩
  · constructor
    · intro h
      by_contra hnot
      simp only [pollStep, if_neg h200] at h
      rw [if_neg hnot] at h
      split at h <;> simp_all
    · intro h
      simp only [pollStep, if_neg h200]
      rw [if_pos h]
  · intro hnot
    simp only [pollStep, if_neg h200]
    rw [if_neg hnot, if_pos hrej]
  · intro resps rt fuel i e hresp helapsed hstep
    simp only [pollLoop, helapsed, hresp, hstep]

/-- Witness for `poll_retry_iff_transient_under_ceiling`: a pending rejection
(status 400) seen 5 seconds into a 180-second ceiling. -/
theorem poll_retry_iff_transient_witness :
    (400 ≤ 400 ∧ 400 < 600)
    ∧ ((pollStep (.resp 400 "authorization_pending") 5 180 = .retrySleep
        ↔ ((400 : Nat) = 400 ∨ (400 : Nat) = 401 ∨ (400 : Nat) = 403)
          ∧ ("authorization_pending" = "authorization_pending"
             ∨ "authorization_pending" = "invalid_grant"
             ∨ "authorization_pending" = "slow_down")
          ∧ 5 < 180)
      ∧ (¬(((400 : Nat) = 400 ∨ (400 : Nat) = 401 ∨ (400 : Nat) = 403)
          ∧ ("authorization_pending" = "authorization_pending"
             ∨ "authorization_pending" = "invalid_grant"
             ∨ "authorization_pending" = "slow_down")
          ∧ 5 < 180)
         → pollStep (.resp 400 "authorization_pending") 5 180 = .terminal 400)
      ∧ (∀ (resps : Nat → FriendsRemover.TokenResp) (rt : Nat → Nat) (fuel i e : Nat),
          resps i = .resp 400 "authorization_pending" → e + rt i = 5
          → pollStep (.resp 400 "authorization_pending") 5 180 = .retrySleep
          → pollLoop resps rt 180 (fuel + 1) i e
              = pollLoop resps rt 180 fuel (i + 1) (5 + 2))) :=
  ⟨by omega,
   poll_retry_iff_transient_under_ceiling 400 "authorization_pending" 5 180 (by omega)⟩

/-- One JSON object in the body of an account-resolution response
(`resolve_display_names`, lines 216-221): the loop reads
`item.get("id") or item.get("accountId") or ""` and
`item.get("displayName") or item.get("display_name") or "<unknown>"`. -/
structure RespItem where
  idFld : Option String
  accountIdFld : Option String
  displayNameFld : Option String
  displayNameSnakeFld : Option String
deriving DecidableEq

def itemAid (it : RespItem) : String :=
  orElseStr it.idFld (orElseStr it.accountIdFld "")

def itemName (it : RespItem) : String :=
  orElseStr it.displayNameFld (orElseStr it.displayNameSnakeFld "<unknown>")

/-- The parsed JSON body of one batch response: a list, a single object, or
anything else. -/
inductive RespData where
  | items (l : List RespItem)
  | singleDict (it : RespItem)
  | otherJson
deriving DecidableEq

/-- Lines 213-224: a dict whose `id` is truthy is wrapped into a one-element
list; a list is iterated; everything else contributes nothing (`pass`). -/
def dataItems : RespData → List RespItem
  | .items l => l
  | .singleDict it => if orElseStr it.idFld "" = "" then [] else [it]
  | .otherJson => []

/-- One network answer for a batch-resolution request: a status code with a
parsed body, or a raised transport exception. -/
inductive BatchNet where
  | resp (status : Nat) (data : RespData)
  | exn (msg : String)

/-- `resp.raise_for_status()` raises `HTTPError` exactly for statuses in
`[400, 600)`. -/
def raisesForStatus (s : Nat) : Prop := 400 ≤ s ∧ s < 600

instance (s : Nat) : Decidable (raisesForStatus s) := by
  unfold raisesForStatus; infer_instance

/-- Result of `resolve_display_names`: the accumulated `out` dict (as an
insertion-ordered association list — a later binding of the same key
overrides an earlier one, see `dictGet`) together with the list of
normalized account-id lists sent, one per issued request. -/
structure ResolveOut where
  mapping : List (String × String)
  requests : List (List String)
deriving DecidableEq

/-- The `for batch in _chunked(...)` loop of `resolve_display_names`
(lines 203-224), over the remaining batches, `b` being the index of the next
request.  Each batch normalizes its ids, issues one GET, fails the whole call
on a transport exception or an HTTP error status (`raise_for_status`), and
otherwise adds every item with a truthy id to `out`. -/
def resolveBatches (net : Nat → BatchNet) : Nat → List (List String) →
    Except String ResolveOut
  | _, [] => .ok ⟨[], []⟩
  | b, batch :: rest =>
    let normalized := batch.map normalize_account_id
    match net b with
    | .exn m => .error m
    | .resp st data =>
      if raisesForStatus st then .error (toString st)
      else
        match resolveBatches net (b + 1) rest with
        | .error m => .error m
        | .ok out =>
          .ok ⟨((dataItems data).filterMap fun it =>
                  if itemAid it = "" then none else some (itemAid it, itemName it))
                ++ out.mapping,
               normalized :: out.requests⟩

/-- `resolve_display_names` (lines 198-226): batches of 100. -/
def resolve_display_names (accountIds : List String) (net : Nat → BatchNet) :
    Except String ResolveOut :=
  resolveBatches net 0 (chunked accountIds 100)

/-- Python `dict.get` on the insertion-ordered association list: the last
binding of a key wins (a later `out[aid] = dname` overrides an earlier one). -/
def dictGet (m : List (String × String)) (k : String) : Option String :=
  (m.reverse).lookup k

/-- `(chunked seq 100).length = ceil(len(seq) / 100)`. -/
theorem chunked100_length (seq : List String) :
    (chunked seq 100).length = (seq.length + 99) / 100 := by
  rw [chunked]
  by_cases h : seq = []
  · simp [h]
  · have hcond : ¬((100 : Nat) = 0 ∨ seq = []) := by simp [h]
    rw [dif_neg hcond]
    have hlen : 0 < seq.length := List.length_pos.mpr h
    simp only [List.length_cons, chunked100_length (seq.drop 100), List.length_drop]
    omega
termination_by seq.length
decreasing_by
  simp only [List.length_drop]
  have hlen : 0 < seq.length := List.length_pos.mpr h
  omega

/-- Every chunk has at most 100 elements. -/
theorem chunked100_le (seq : List String) :
    ∀ c ∈ chunked seq 100, c.length ≤ 100 := by
  rw [chunked]
  by_cases h : seq = []
  · simp [h]
  · have hcond : ¬((100 : Nat) = 0 ∨ seq = []) := by simp [h]
    rw [dif_neg hcond]
    intro c hc
    rcases List.mem_cons.mp hc with hc | hc
    · subst hc
      simpa using List.length_take_le 100 seq
    · exact chunked100_le (seq.drop 100) c hc
termination_by seq.length
decreasing_by
  simp only [List.length_drop]
  have hlen : 0 < seq.length := List.length_pos.mpr h
  omega

/-- The chunks are consecutive slices: concatenating them gives back the
input. -/
theorem chunked100_join (seq : List String) :
    (chunked seq 100).flatten = seq := by
  rw [chunked]
  by_cases h : seq = []
  · simp [h]
  · have hcond : ¬((100 : Nat) = 0 ∨ seq = []) := by simp [h]
    rw [dif_neg hcond]
    simp only [List.flatten_cons, chunked100_join (seq.drop 100)]
    exact List.take_append_drop 100 seq
termination_by seq.length
decreasing_by
  simp only [List.length_drop]
  have hlen : 0 < seq.length := List.length_pos.mpr h
  omega

/-- When no batch response raises, the batch loop succeeds, sends exactly the
normalized batches (one request per batch, in order), and its merged mapping
has a key for every truthy id in any batch response. -/
theorem resolveBatches_ok (net : Nat → BatchNet)
    (hnet : ∀ b, ∃ st data, net b = .resp st data ∧ ¬raisesForStatus st) :
    ∀ (batches : List (List String)) (b : Nat),
    ∃ out, resolveBatches net b batches = .ok out
      ∧ out.requests = batches.map (fun batch => batch.map normalize_account_id)
      ∧ (∀ j st data, j < batches.length → net (b + j) = .resp st data →
          ∀ it ∈ dataItems data, itemAid it ≠ "" →
            itemAid it ∈ out.mapping.map Prod.fst) := by
  intro batches
  induction batches with
  | nil =>
    intro b
    exact ⟨⟨[], []⟩, rfl, rfl, by intro j st data hj; simp at hj⟩
  | cons batch rest ih =>
    intro b
    obtain ⟨st, data, hnb, hst⟩ := hnet b
    obtain ⟨out, hout, hreq, hmem⟩ := ih (b + 1)
    refine ⟨⟨((dataItems data).filterMap fun it =>
                if itemAid it = "" then none else some (itemAid it, itemName it))
              ++ out.mapping,
             batch.map normalize_account_id :: out.requests⟩, ?_, ?_, ?_⟩
    · simp only [resolveBatches, hnb, if_neg hst, hout]
    · simp [hreq]
    · intro j st' data' hj hnj it hit haid
      simp only [List.map_append, List.mem_append]
      cases j with
      | zero =>
        rw [Nat.add_zero, hnb] at hnj
        injection hnj with h1 h2
        subst h2
        left
        have : (itemAid it, itemName it) ∈
            (dataItems data).filterMap fun it =>
              if itemAid it = "" then none else some (itemAid it, itemName it) := by
          rw [List.mem_filterMap]
          exact ⟨it, hit, by rw [if_neg haid]⟩
        exact List.mem_map.mpr ⟨(itemAid it, itemName it), this, rfl⟩
      | succ j =>
        right
        have hidx : b + (j + 1) = (b + 1) + j := by omega
        rw [hidx] at hnj
        have := hmem j st' data' (by simpa using hj) hnj it hit haid
        simpa using this

/-- C6: identity resolution partitions the input into `ceil(n/100)` consecutive
batches of size at most 100, issues exactly one resolution request per batch
(the recorded request list has one entry per chunk, in order), and — when no
batch fails — the merged mapping has an entry for every (truthy) id present in
any batch response.  With 250 ids the chunk count is `(250 + 99) / 100 = 3`. -/
theorem resolver_batching (ids : List String) (net : Nat → BatchNet)
    (hnet : ∀ b, ∃ st data, net b = .resp st data ∧ ¬raisesForStatus st) :
    (chunked ids 100).length = (ids.length + 99) / 100
    ∧ (∀ c ∈ chunked ids 100, c.length ≤ 100)
    ∧ (chunked ids 100).flatten = ids
    ∧ ∃ out, resolve_display_names ids net = .ok out
        ∧ out.requests.length = (chunked ids 100).length
        ∧ (∀ j st data, j < (chunked ids 100).length → net j = .resp st data →
            ∀ it ∈ dataItems data, itemAid it ≠ "" →
              itemAid it ∈ out.mapping.map Prod.fst) := by
  refine ⟨chunked100_length ids, chunked100_le ids, chunked100_join ids, ?_⟩
  obtain ⟨out, hout, hreq, hmem⟩ := resolveBatches_ok net hnet (chunked ids 100) 0
  refine ⟨out, hout, by rw [hreq]; simp, ?_⟩
  intro j st data hj hnj it hit haid
  exact hmem j st data hj (by simpa using hnj) it hit haid

/-- The all-OK, empty-body response oracle used by the batching witness. -/
def emptyOkNet : Nat → BatchNet := fun _ => .resp 200 (.items [])

/-- Witness for `resolver_batching`: 250 identical ids against an oracle that
answers every batch with an empty 200 response; the chunk-count formula gives
`(250 + 99) / 100 = 3` requests. -/
theorem resolver_batching_witness :
    (∀ b : Nat, ∃ st data, emptyOkNet b = .resp st data ∧ ¬raisesForStatus st)
    ∧ ((List.replicate 250 "a").length + 99) / 100 = 3
    ∧ ((chunked (List.replicate 250 "a") 100).length
         = ((List.replicate 250 "a").length + 99) / 100
       ∧ (∀ c ∈ chunked (List.replicate 250 "a") 100, c.length ≤ 100)
       ∧ (chunked (List.replicate 250 "a") 100).flatten = List.replicate 250 "a"
       ∧ ∃ out, resolve_display_names (List.replicate 250 "a") emptyOkNet = .ok out
           ∧ out.requests.length = (chunked (List.replicate 250 "a") 100).length
           ∧ (∀ j st data, j < (chunked (List.replicate 250 "a") 100).length
               → emptyOkNet j = .resp st data →
               ∀ it ∈ dataItems data, itemAid it ≠ "" →
                 itemAid it ∈ out.mapping.map Prod.fst)) :=
  ⟨fun _ => ⟨200, .items [], rfl, by simp [raisesForStatus]⟩,
   by rw [List.length_replicate],
   resolver_batching (List.replicate 250 "a") emptyOkNet
     (fun _ => ⟨200, .items [], rfl, by simp [raisesForStatus]⟩)⟩

/-- One raw relationship record from `get_friends_summary` as used by `run`
(steps 5-6): `f.get("accountId")`, `f.get("mutual", 0)`, `f.get("created", "")`. -/
structure Friend where
  accountIdFld : Option String
  mutualFld : Option Nat
  createdFld : Option String
deriving DecidableEq

/-- Step 5 of `run` (line 308):
`[f.get("accountId") for f in friends if f.get("accountId")]` — keep the raw
(unnormalized) account id of every friend whose id is truthy. -/
def collectAccountIds (friends : List Friend) : List String :=
  friends.filterMap fun f =>
    if f.accountIdFld.getD "" = "" then none else f.accountIdFld

/-- Step 6 of `run` (lines 312-322): one UI row per friend; the display name
is looked up in `display_map` under the *raw* `f.get("accountId", "")`,
falling back to `"<unknown>"`. -/
def buildRows (friends : List Friend) (displayMap : List (String × String)) :
    List EpicFriendsUI.Row :=
  friends.map fun f =>
    { accountId := f.accountIdFld.getD ""
      displayName := (dictGet displayMap (f.accountIdFld.getD "")).getD "<unknown>"
      mutualCt := toString (f.mutualFld.getD 0)
      created := f.createdFld.getD "" }

/-- The sort key of line 325: `(r["displayName"].lower(), r["accountId"])`,
compared lexicographically. -/
def rowKeyLe (a b : EpicFriendsUI.Row) : Bool :=
  decide (a.displayName.toLower < b.displayName.toLower
    ∨ (a.displayName.toLower = b.displayName.toLower ∧ a.accountId ≤ b.accountId))

/-- Line 325: `rows.sort(key=...)` — a stable sort by the display-name key. -/
def sortRows (rows : List EpicFriendsUI.Row) : List EpicFriendsUI.Row :=
  rows.mergeSort rowKeyLe

/-- The batch oracle of the C7 scenario: the remote resolves the canonical id
`"abc"` to `"Alice"`. -/
def c7net : Nat → BatchNet :=
  fun _ => .resp 200 (.items [⟨some "abc", none, some "Alice", none⟩])

/-- The friend list of the C7 scenario: a single friend whose raw account id
carries a namespace prefix, `"ns:abc"`. -/
def c7friends : List Friend := [⟨some "ns:abc", none, none⟩]

/-- Evaluation of the resolver in the C7 scenario: the request sends the
canonical id `"abc"` and the mapping comes back keyed by `"abc"`. -/
theorem c7_resolve_eval :
    resolve_display_names ["ns:abc"] c7net = .ok ⟨[("abc", "Alice")], [["abc"]]⟩ := by
  have h1 : chunked ["ns:abc"] 100 = [["ns:abc"]] := by
    rw [chunked]
    rw [dif_neg (by simp)]
    rw [chunked]
    simp
  unfold resolve_display_names
  rw [h1]
  rfl

/-- C7 counterexample: with the prefixed input id `"ns:abc"`, resolution keys
the mapping by the canonical `"abc"` (which does map to `"Alice"`), but the
row built for display looks the name up under the raw `"ns:abc"` and shows
`"<unknown>"` — the prefixed input id does *not* receive its resolved display
name, contradicting the claim. -/
theorem prefixed_id_loses_name :
    resolve_display_names ["ns:abc"] c7net = .ok ⟨[("abc", "Alice")], [["abc"]]⟩
    ∧ dictGet [("abc", "Alice")] "abc" = some "Alice"
    ∧ (buildRows c7friends [("abc", "Alice")]).map EpicFriendsUI.Row.displayName
        = ["<unknown>"] :=
  ⟨c7_resolve_eval, rfl, rfl⟩

/-- Whenever `resolveBatches` succeeds, the recorded requests are exactly the
batches with every id normalized — one request per batch, in order. -/
theorem resolveBatches_requests (net : Nat → BatchNet) :
    ∀ (batches : List (List String)) (b : Nat) (out : ResolveOut),
    resolveBatches net b batches = .ok out →
    out.requests = batches.map (fun batch => batch.map normalize_account_id) := by
  intro batches
  induction batches with
  | nil =>
    intro b out h
    simp only [resolveBatches] at h
    injection h with h
    rw [← h]
    rfl
  | cons batch rest ih =>
    intro b out h
    cases hnb : net b with
    | exn m => simp [resolveBatches, hnb] at h
    | resp st data =>
      simp only [resolveBatches, hnb] at h
      by_cases hst : raisesForStatus st
      · rw [if_pos hst] at h; exact absurd h (by simp)
      · rw [if_neg hst] at h
        cases hrec : resolveBatches net (b + 1) rest with
        | error m => rw [hrec] at h; exact absurd h (by simp)
        | ok out' =>
          rw [hrec] at h
          injection h with h
          rw [← h]
          simp [ih (b + 1) out' hrec]

/-- All of `pre`'s characters pass the `c != ':'` test, so dropping the
colon-free prefix of `pre ++ ":" ++ post` stops exactly at the colon. -/
theorem dropWhile_ne_colon (l : List Char) (h : ':' ∉ l) (rest : List Char) :
    (l ++ ':' :: rest).dropWhile (fun c => c ≠ ':') = ':' :: rest := by
  induction l with
  | nil => simp [List.dropWhile_cons]
  | cons a l ih =>
    have ha : a ≠ ':' := fun hc => h (hc ▸ List.mem_cons_self a l)
    have hl : ':' ∉ l := fun hc => h (List.mem_cons_of_mem a hc)
    simp only [List.cons_append, List.dropWhile_cons]
    rw [if_pos (by simpa using ha)]
    exact ih hl

/-- C7 (amended): the suffix after the first separator is the canonical
identifier used for the resolution request, and the resolver's output mapping
is keyed by the ids the remote reports; but the entry built for display looks
the name up under the *raw* input id, not the canonical one, so a prefixed
input id receives its resolved display name only when the raw (still
prefixed) id itself is a key of the mapping, and gets the `"<unknown>"`
placeholder otherwise. -/
theorem canonical_request_raw_lookup (ids : List String) (net : Nat → BatchNet)
    (out : ResolveOut) (hok : resolve_display_names ids net = .ok out) :
    out.requests = (chunked ids 100).map (fun batch => batch.map normalize_account_id)
    ∧ (∀ pre post : String, ':' ∉ pre.data →
        normalize_account_id (pre ++ ":" ++ post) = post)
    ∧ (∀ (f : Friend) (dmap : List (String × String)) (raw : String),
        f.accountIdFld = some raw →
        (buildRows [f] dmap).map EpicFriendsUI.Row.displayName
          = [(dictGet dmap raw).getD "<unknown>"]) := by
  refine ⟨resolveBatches_requests net (chunked ids 100) 0 out hok, ?_, ?_⟩
  · intro pre post hpre
    unfold normalize_account_id
    have hdata : (pre ++ ":" ++ post).data = pre.data ++ ':' :: post.data := by
      simp [String.data_append]
    rw [hdata]
    have hmem : ':' ∈ pre.data ++ ':' :: post.data := by simp
    rw [if_pos (List.elem_iff.mpr hmem)]
    rw [dropWhile_ne_colon pre.data hpre post.data]
    simp
  · intro f dmap raw hf
    simp [buildRows, hf]

/-- Witness for `canonical_request_raw_lookup`: the C7 scenario with input id
`"ns:abc"` and the remote resolving `"abc"` to `"Alice"`. -/
theorem canonical_request_raw_lookup_witness :
    resolve_display_names ["ns:abc"] c7net
      = .ok ⟨[("abc", "Alice")], [["abc"]]⟩
    ∧ ((⟨[("abc", "Alice")], [["abc"]]⟩ : ResolveOut).requests
        = (chunked ["ns:abc"] 100).map (fun batch => batch.map normalize_account_id)
      ∧ (∀ pre post : String, ':' ∉ pre.data →
          normalize_account_id (pre ++ ":" ++ post) = post)
      ∧ (∀ (f : Friend) (dmap : List (String × String)) (raw : String),
          f.accountIdFld = some raw →
          (buildRows [f] dmap).map EpicFriendsUI.Row.displayName
            = [(dictGet dmap raw).getD "<unknown>"])) :=
  ⟨c7_resolve_eval,
   canonical_request_raw_lookup ["ns:abc"] c7net ⟨[("abc", "Alice")], [["abc"]]⟩
     c7_resolve_eval⟩

/-- One network answer for a single removal (or teardown) request: a status
code, or a raised exception from `session.delete` itself (timeout,
connection error, ...). -/
inductive NetResult where
  | resp (status : Nat)
  | exn (msg : String)
deriving DecidableEq

/-- What `remove_friend` can raise, as caught by the bulk loop (lines
361-365): an `HTTPError` carrying the response status, or any other
exception (whose `repr` becomes the reason). -/
inductive RemoveErr where
  | http (status : Nat)
  | other (msg : String)
deriving DecidableEq

/-- `remove_friend` (lines 228-240): statuses 200/202/204 succeed; any other
status goes through `raise_for_status()`, which raises exactly for statuses
in `[400, 600)`; a transport exception propagates as-is. -/
def remove_friend (net : NetResult) : Except RemoveErr Unit :=
  match net with
  | .exn m => .error (.other m)
  | .resp s =>
    if s = 200 ∨ s = 202 ∨ s = 204 then .ok ()
    else if raisesForStatus s then .error (.http s) else .ok ()

/-- The failure reason recorded by the bulk loop:
`str(e.response.status_code)` for an `HTTPError`, `repr(e)` otherwise. -/
def reasonOf : RemoveErr → String
  | .http s => toString s
  | .other m => m

def removeOk (r : Except RemoveErr Unit) : Bool :=
  match r with
  | .ok _ => true
  | .error _ => false

/-- The bulk-removal loop of `run`, step 8 (lines 345-367): for the `i`-th
selected id, attempt `remove_friend`; on success append the id to
`successes`, on `HTTPError` or any other exception append `(id, reason)` to
`failures`; either way (`finally`) advance the progress bar.  `net i` is the
network outcome of the `i`-th attempt.  Returns
`(successes, failures, progress ticks)`. -/
def bulkRemove (net : Nat → NetResult) : Nat → List String →
    List String × List (String × String) × Nat
  | _, [] => ([], [], 0)
  | i, fid :: rest =>
    let r := bulkRemove net (i + 1) rest
    match remove_friend (net i) with
    | .ok _ => (fid :: r.1, r.2.1, r.2.2 + 1)
    | .error e => (r.1, (fid, reasonOf e) :: r.2.1, r.2.2 + 1)

/-- Structure of the bulk loop, for any start index: the loop never aborts
(one progress tick per item), `successes` is exactly the ids whose attempt
succeeded, in input order, and the ids of `failures` are exactly those whose
attempt raised, in input order; the two lengths sum to the input length. -/
theorem bulkRemove_spec (net : Nat → NetResult) :
    ∀ (sel : List String) (i : Nat),
    (bulkRemove net i sel).1.length + (bulkRemove net i sel).2.1.length = sel.length
    ∧ (bulkRemove net i sel).2.2 = sel.length
    ∧ (bulkRemove net i sel).1
        = ((sel.enumFrom i).filter fun p => removeOk (remove_friend (net p.1))).map
            Prod.snd
    ∧ (bulkRemove net i sel).2.1.map Prod.fst
        = ((sel.enumFrom i).filter fun p => !removeOk (remove_friend (net p.1))).map
            Prod.snd := by
  intro sel
  induction sel with
  | nil => intro i; exact ⟨rfl, rfl, rfl, rfl⟩
  | cons fid rest ih =>
    intro i
    obtain ⟨h1, h2, h3, h4⟩ := ih (i + 1)
    cases hr : remove_friend (net i) with
    | ok u =>
      have hp : removeOk (remove_friend (net i)) = true := by rw [hr]; rfl
      refine ⟨?_, ?_, ?_, ?_⟩
      · simp only [bulkRemove, hr, List.length_cons]
        omega
      · simp only [bulkRemove, hr, List.length_cons]
        omega
      · simp only [bulkRemove, hr, List.enumFrom_cons]
        simp [List.filter_cons, hp, h3]
      · simp only [bulkRemove, hr, List.enumFrom_cons]
        simp [List.filter_cons, hp, h4]
    | error e =>
      have hp : removeOk (remove_friend (net i)) = false := by rw [hr]; rfl
      refine ⟨?_, ?_, ?_, ?_⟩
      · simp only [bulkRemove, hr, List.length_cons]
        omega
      · simp only [bulkRemove, hr, List.length_cons]
        omega
      · simp only [bulkRemove, hr, List.enumFrom_cons]
        simp [List.filter_cons, hp, h3]
      · simp only [bulkRemove, hr, List.enumFrom_cons]
        simp [List.filter_cons, hp, h4]

/-- C1: the bulk removal loop applies the remove operation to each selected id
sequentially and unconditionally — one progress tick per id no matter the
outcome, so a failure never prevents attempting the rest; every id lands in
exactly one of `successes`/`failures`, in input order (they are the
order-preserving partition of the enumerated selection by attempt outcome);
and `len(successes) + len(failures) = len(selection)`. -/
theorem bulk_removal_partitions (net : Nat → NetResult) (selection : List String) :
    (bulkRemove net 0 selection).1.length + (bulkRemove net 0 selection).2.1.length
      = selection.length
    ∧ (bulkRemove net 0 selection).2.2 = selection.length
    ∧ (bulkRemove net 0 selection).1
        = ((selection.enumFrom 0).filter fun p =>
            removeOk (remove_friend (net p.1))).map Prod.snd
    ∧ (bulkRemove net 0 selection).2.1.map Prod.fst
        = ((selection.enumFrom 0).filter fun p =>
            !removeOk (remove_friend (net p.1))).map Prod.snd :=
  bulkRemove_spec net selection 0

/-- C2: a removal answered with one of the explicit success-equivalent status
codes (200, 202, 204 — the set that includes the "already absent" answer) is
classified as success: `remove_friend` does not raise, and removing the same
id twice with such answers puts it in `successes` both times, with no
failure recorded. -/
theorem already_absent_is_success (s₁ s₂ : Nat) (x : String) (net : Nat → NetResult)
    (h₁ : s₁ = 200 ∨ s₁ = 202 ∨ s₁ = 204) (h₂ : s₂ = 200 ∨ s₂ = 202 ∨ s₂ = 204)
    (hn₀ : net 0 = .resp s₁) (hn₁ : net 1 = .resp s₂) :
    remove_friend (.resp s₁) = .ok () ∧ remove_friend (.resp s₂) = .ok ()
    ∧ bulkRemove net 0 [x, x] = ([x, x], [], 2) := by
  have e₁ : remove_friend (.resp s₁) = .ok () := by
    simp only [remove_friend]; rw [if_pos h₁]
  have e₂ : remove_friend (.resp s₂) = .ok () := by
    simp only [remove_friend]; rw [if_pos h₂]
  refine ⟨e₁, e₂, ?_⟩
  simp [bulkRemove, hn₀, hn₁, e₁, e₂]

/-- Witness for `already_absent_is_success`: both attempts answer 204. -/
theorem already_absent_is_success_witness :
    (((204 : Nat) = 200 ∨ (204 : Nat) = 202 ∨ (204 : Nat) = 204)
     ∧ ((204 : Nat) = 200 ∨ (204 : Nat) = 202 ∨ (204 : Nat) = 204)
     ∧ (fun _ : Nat => NetResult.resp 204) 0 = .resp 204
     ∧ (fun _ : Nat => NetResult.resp 204) 1 = .resp 204)
    ∧ (remove_friend (.resp 204) = .ok () ∧ remove_friend (.resp 204) = .ok ()
       ∧ bulkRemove (fun _ => NetResult.resp 204) 0 ["friend", "friend"]
           = (["friend", "friend"], [], 2)) :=
  ⟨⟨by omega, by omega, rfl, rfl⟩,
   already_absent_is_success 204 204 "friend" (fun _ => NetResult.resp 204)
     (by omega) (by omega) rfl rfl⟩

/-- `kill_session` (lines 255-268): issue the DELETE; only the
`resp.raise_for_status()` is wrapped in `try/except: pass`, so an HTTP error
status is swallowed whatever it is, while an exception raised by
`session.delete` itself (timeout, connection error) propagates. -/
def kill_session (net : NetResult) : Except String Unit :=
  match net with
  | .exn m => .error m
  | .resp _ => .ok ()

/-- How `run` exits. -/
inductive RunExit where
  | authFailed
  | noFriends
  | noSelection
  | notConfirmed
  | completed (successes : List String) (failures : List (String × String))
deriving DecidableEq

/-- The external world of one `run` (lines 271-383): outcomes of the setup
calls (`token_client_credentials` / `create_device_code`, which propagate
fatally on failure), of the device-code exchange (whose `HTTPError` is caught
at lines 286-290), of `get_friends_summary` (fatal on failure), the friend
list, the per-batch resolution responses, the selection returned by
`ui.select` (the input events are outside `run`), the confirmation answer,
the per-removal network outcomes, and the teardown network outcome. -/
structure RunEnv where
  setupErr : Option String
  exchangeOk : Bool
  summaryErr : Option String
  friends : List Friend
  resolveNet : Nat → BatchNet
  selection : List String
  confirm : Bool
  removeNet : Nat → NetResult
  killNet : NetResult

/-- A `self.kill_session()` call followed by returning from `run`: the first
component counts this teardown attempt, and an exception raised inside
`kill_session` propagates out of `run`. -/
def killAndExit (net : NetResult) (ex : RunExit) : Nat × Except String RunExit :=
  match kill_session net with
  | .ok _ => (1, .ok ex)
  | .error m => (1, .error m)

/-- `FriendsRemover.run` (lines 271-383), returning how many times teardown
was attempted together with the outcome (`.error` = an uncaught exception
propagating to the caller).  Branches, in source order: fatal setup failure;
the caught exchange `HTTPError` (print and return, no teardown); fatal
summary failure; no friends → teardown; resolution failure propagates
(before any teardown); empty/cancelled selection → teardown; confirmation
declined → teardown; otherwise bulk removal, then teardown. -/
def run (env : RunEnv) : Nat × Except String RunExit :=
  match env.setupErr with
  | some m => (0, .error m)
  | none =>
    if env.exchangeOk = false then (0, .ok .authFailed)
    else
      match env.summaryErr with
      | some m => (0, .error m)
      | none =>
        if env.friends = [] then killAndExit env.killNet .noFriends
        else
          match resolve_display_names (collectAccountIds env.friends) env.resolveNet with
          | .error m => (0, .error m)
          | .ok rout =>
            let _rows := sortRows (buildRows env.friends rout.mapping)
            if env.selection = [] then killAndExit env.killNet .noSelection
            else if env.confirm = false then killAndExit env.killNet .notConfirmed
            else
              let r := bulkRemove env.removeNet 0 env.selection
              killAndExit env.killNet (.completed r.1 r.2.1)

/-- `killAndExit` counts exactly one teardown attempt; an HTTP error status in
the teardown response is swallowed, a transport exception propagates. -/
theorem killAndExit_spec (net : NetResult) (ex : RunExit) :
    (killAndExit net ex).1 = 1
    ∧ (∀ s, net = .resp s → killAndExit net ex = (1, .ok ex))
    ∧ (∀ m, net = .exn m → (killAndExit net ex).2 = .error m) := by
  cases net <;> simp [killAndExit, kill_session]

/-- A run whose teardown request raises a transport exception: no friends are
found, `kill_session` is entered, and the exception escapes `run`. -/
def envKillRaises : RunEnv :=
  { setupErr := none, exchangeOk := true, summaryErr := none, friends := [],
    resolveNet := fun _ => .exn "", selection := [], confirm := false,
    removeNet := fun _ => .resp 200, killNet := .exn "ConnectionError" }

/-- C3 counterexample: on the no-friends branch with a teardown whose DELETE
raises a transport exception, teardown is attempted (once), but the failure
inside teardown is *not* swallowed — `run` ends with that very exception
escalated to the caller, contradicting "any failure inside teardown is
swallowed and never escalated". -/
theorem teardown_exception_escalates :
    (run envKillRaises).1 = 1
    ∧ (run envKillRaises).2 = Except.error "ConnectionError" :=
  ⟨rfl, rfl⟩

/-- C3 (amended): on every run that takes one of the listed branches — no
friends found, empty or cancelled selection, confirmation declined, or
removal completed (i.e. setup, exchange and summary succeed, and either the
friend list is empty or resolution succeeds) — teardown is attempted exactly
once; an HTTP error status in the teardown response is swallowed (the run
still ends normally), but a transport-level exception raised while issuing
the teardown request is not caught and propagates to the caller. -/
theorem teardown_once_status_swallowed (env : RunEnv)
    (hsetup : env.setupErr = none) (hex : env.exchangeOk = true)
    (hsum : env.summaryErr = none)
    (hres : env.friends = [] ∨
      ∃ out, resolve_display_names (collectAccountIds env.friends) env.resolveNet
               = .ok out) :
    (run env).1 = 1
    ∧ (∀ s, env.killNet = .resp s → ∃ ex, run env = (1, .ok ex))
    ∧ (∀ m, env.killNet = .exn m → (run env).2 = .error m) := by
  have hform : ∃ ex, run env = killAndExit env.killNet ex := by
    unfold run
    rw [hsetup, hsum, hex]
    simp only [Bool.true_eq_false, if_false]
    by_cases hf : env.friends = []
    · rw [if_pos hf]
      exact ⟨.noFriends, rfl⟩
    · rw [if_neg hf]
      rcases hres with h | ⟨out, hout⟩
      · exact absurd h hf
      · rw [hout]
        by_cases hsel : env.selection = []
        · rw [if_pos hsel]
          exact ⟨.noSelection, rfl⟩
        · rw [if_neg hsel]
          by_cases hcf : env.confirm = false
          · rw [if_pos hcf]
            exact ⟨.notConfirmed, rfl⟩
          · rw [if_neg hcf]
            exact ⟨.completed (bulkRemove env.removeNet 0 env.selection).1
                     (bulkRemove env.removeNet 0 env.selection).2.1, rfl⟩
  obtain ⟨ex, hex'⟩ := hform
  obtain ⟨k1, k2, k3⟩ := killAndExit_spec env.killNet ex
  refine ⟨by rw [hex']; exact k1, ?_, ?_⟩
  · intro s hs
    exact ⟨ex, by rw [hex']; exact k2 s hs⟩
  · intro m hm
    rw [hex']
    exact k3 m hm

/-- A run reaching the no-friends branch whose teardown answers HTTP 500. -/
def envKillHttp500 : RunEnv :=
  { setupErr := none, exchangeOk := true, summaryErr := none, friends := [],
    resolveNet := fun _ => .exn "", selection := [], confirm := false,
    removeNet := fun _ => .resp 200, killNet := .resp 500 }

/-- Witness for `teardown_once_status_swallowed`: the no-friends branch with a
teardown answering HTTP 500 — one attempt, failure swallowed. -/
theorem teardown_once_status_swallowed_witness :
    (envKillHttp500.setupErr = none ∧ envKillHttp500.exchangeOk = true
     ∧ envKillHttp500.summaryErr = none
     ∧ (envKillHttp500.friends = [] ∨
         ∃ out, resolve_display_names (collectAccountIds envKillHttp500.friends)
                  envKillHttp500.resolveNet = .ok out))
    ∧ ((run envKillHttp500).1 = 1
       ∧ (∀ s, envKillHttp500.killNet = .resp s → ∃ ex, run envKillHttp500 = (1, .ok ex))
       ∧ (∀ m, envKillHttp500.killNet = .exn m → (run envKillHttp500).2 = .error m)) :=
  ⟨⟨rfl, rfl, rfl, Or.inl rfl⟩,
   teardown_once_status_swallowed envKillHttp500 rfl rfl rfl (Or.inl rfl)⟩

end FriendsRemover
